import Mathlib

/-!
Shallow embedding of the rust-media example media player
(`src/example/example.rs`) and proofs about its format adaptation,
frame conversion, clock, audio path and presentation loop.

Samples are `f32` in the source; the example only moves samples around
and fills with the literal `0.0` (no floating-point arithmetic occurs),
so sample values are embedded as `Int`.
-/

namespace RustMediaExample

/-- Pixel formats of the `rust-media` library (`media::pixelformat::PixelFormat`).
The exhaustive match in `SdlVideoFormat::from_video_track` covers exactly these
four variants; `Indexed` carries a palette, embedded as a `Nat` tag. -/
inductive PixelFormat where
  | I420
  | NV12
  | Indexed (palette : Nat)
  | Rgb24
  deriving DecidableEq, Repr

/-- SDL pixel formats used by the example (`sdl2::pixels::PixelFormatEnum`);
only the two variants the example produces are needed. -/
inductive PixelFormatEnum where
  | IYUV
  | RGB24
  deriving DecidableEq, Repr

/-- The data of a `VideoTrack` that the example reads: declared native pixel
format, width and height (`u16` in the source, embedded as `Nat` with the
bound `< 2^16` carried as a hypothesis where it matters). -/
structure VideoTrackData where
  pixel_format : PixelFormat
  width : Nat
  height : Nat
  deriving DecidableEq, Repr

/-- Mapping from the codec's pixel format to the nearest matching SDL format,
plus the "SDL width" (struct `SdlVideoFormat` in the source). -/
structure SdlVideoFormat where
  media_pixel_format : PixelFormat
  sdl_pixel_format : PixelFormatEnum
  sdl_width : Nat
  deriving DecidableEq, Repr

/-- `SdlVideoFormat::from_video_track`: `I420 | NV12 ↦ (I420, IYUV)`,
`Indexed(_) | Rgb24 ↦ (Rgb24, RGB24)`; `sdl_width = width & !1` where `!1`
on `u16` is `0xFFFE = 65534`. -/
def SdlVideoFormat.from_video_track (t : VideoTrackData) : SdlVideoFormat :=
  match t.pixel_format with
  | .I420 | .NV12 =>
      { media_pixel_format := .I420
        sdl_pixel_format := .IYUV
        sdl_width := t.width &&& 65534 }
  | .Indexed _ | .Rgb24 =>
      { media_pixel_format := .Rgb24
        sdl_pixel_format := .RGB24
        sdl_width := t.width &&& 65534 }

/-- The `real_length` computed in `ExampleVideoRenderer::upload` for the I420
case: `stride * height + 2 * ((stride / 2) * (height / 2))`. -/
def i420RealLength (stride height : Nat) : Nat :=
  stride * height + 2 * ((stride / 2) * (height / 2))

/-- The `real_length` match in `ExampleVideoRenderer::upload`: defined for the
two formats SDL can render natively, `none` embeds the `panic!` arm. -/
def uploadRealLength (fmt : PixelFormat) (stride height : Nat) : Option Nat :=
  match fmt with
  | .I420 => some (i420RealLength stride height)
  | .Rgb24 => some (stride * height)
  | _ => none

/-- The unchecked reinterpretation in `ExampleVideoRenderer::upload`
(`slice::from_raw_mut_buf` over the locked pixels with length `real_length`):
a view of length exactly `n` starting at the buffer's base — the buffer's own
data where it reaches, memory past its end (embedded as zeros) where it does
not. -/
def transmuteToLength (buf : List Int) (n : Nat) : List Int :=
  buf.take n ++ List.replicate (n - buf.length) 0

/-- The output-plane partition in `upload_image`: for I420 the output buffer is
split (`split_at_mut`, which panics — here `none` — when the split point
exceeds the buffer length) into a luma plane of `stride * height` bytes and two
chroma planes of `(stride / 2) * (height / 2)` bytes each, with chroma stride
`stride / 2`; for Rgb24 the whole buffer is the single plane. The `panic!` arm
for other formats is `none`. Returns the per-plane buffers and strides handed
to the pixel-format converter. -/
def upload_image (video_track : VideoTrackData) (output_pixels : List Int)
    (output_stride : Nat) : Option (List (List Int) × List Nat) :=
  let height := video_track.height
  let output_video_format := SdlVideoFormat.from_video_track video_track
  match output_video_format.media_pixel_format with
  | .I420 =>
      let lumaLen := output_stride * height
      if lumaLen ≤ output_pixels.length then
        let output_luma := output_pixels.take lumaLen
        let output_chroma := output_pixels.drop lumaLen
        let output_chroma_stride := output_stride / 2
        let chromaLen := output_chroma_stride * (height / 2)
        if chromaLen ≤ output_chroma.length then
          let output_u := output_chroma.take chromaLen
          let output_v := output_chroma.drop chromaLen
          some ([output_luma, output_u, output_v],
                [output_stride, output_chroma_stride, output_chroma_stride])
        else none
      else none
  | .Rgb24 => some ([output_pixels], [output_stride])
  | _ => none

/-- `ExampleVideoRenderer::upload`: computes `real_length` from the output
format, stride and track height, reinterprets the locked pixel buffer (whose
reported length is `reported_pixels.length`) as a buffer of length exactly
`real_length` with no size check, and calls `upload_image` on it. -/
def upload (video_track : VideoTrackData) (reported_pixels : List Int)
    (stride : Nat) : Option (List (List Int) × List Nat) := do
  let output_video_format := SdlVideoFormat.from_video_track video_track
  let real_length ← uploadRealLength output_video_format.media_pixel_format
      stride video_track.height
  upload_image video_track (transmuteToLength reported_pixels real_length) stride

/-- The clock state of `ExampleMediaPlayer`: the reference timestamp
(`playback_start_ticks`, `i64`) and the reference wall-clock time in
nanoseconds (`playback_start_wallclock_time`, `u64`), both embedded as `Int`. -/
structure ExampleMediaPlayer where
  playback_start_ticks : Int
  playback_start_wallclock_time : Int
  deriving DecidableEq, Repr

/-- `ExampleMediaPlayer::new`: reference tick 0, reference wall-clock time the
current monotonic time (passed in as `now`, since the embedding is pure). -/
def ExampleMediaPlayer.new (now : Int) : ExampleMediaPlayer :=
  { playback_start_ticks := 0
    playback_start_wallclock_time := now }

/-- `ExampleMediaPlayer::resync`: re-anchors the clock at the given tick and
the current monotonic time `now`. -/
def ExampleMediaPlayer.resync (_p : ExampleMediaPlayer) (ticks now : Int) :
    ExampleMediaPlayer :=
  { playback_start_ticks := ticks
    playback_start_wallclock_time := now }

/-- The target presentation instant computed in the main loop:
`Duration::nanoseconds(playback_start_wallclock_time) +
(frame_tick - playback_start_ticks).duration()`. The library's tick-to-duration
conversion (`.duration()`, not under `src/`) is abstracted as `toDuration`. -/
def targetTime (toDuration : Int → Int) (p : ExampleMediaPlayer)
    (frameTick : Int) : Int :=
  p.playback_start_wallclock_time +
    toDuration (frameTick - p.playback_start_ticks)

/-- The channel count requested when opening the audio device in
`ExampleAudioRenderer::new`: `cmp::min(channels, 2)`. -/
def requestedChannels (channels : Nat) : Nat :=
  min channels 2

/-- `ExampleAudioRenderer::callback` (the SDL pull callback): if fewer pending
samples than output slots, first zero the whole output buffer; then copy
pending sample `i` into output slot `i` for `i < out.length`, keeping the rest
as leftovers. Returns the final output buffer and the new pending buffer. -/
def callback (pending : List Int) (out : List Int) : List Int × List Int :=
  let out1 := if pending.length < out.length
              then List.replicate out.length 0
              else out
  let out2 := (List.range out1.length).map fun i =>
    if i < pending.length then pending.getD i 0 else out1.getD i 0
  let leftovers := pending.drop out.length
  (out2, leftovers)

/-- Modelled from the spec: the `Float32Planar.convert(&Float32Interleaved, …)`
audio-format conversion lives in `media::audioformat` (this repository, not
under `src/`). Per the spec it interleaves the planar input channels into one
output buffer of the given length so that `output[i*C + c] = input[c][i]` for
channel count `C`; slot `j` holds channel `j % C`, sample `j / C`. -/
def convertFloat32PlanarToInterleaved (channels : Nat)
    (input : List (List Int)) (outLen : Nat) : List Int :=
  (List.range outLen).map fun j =>
    (input.getD (j % channels) []).getD (j / channels) 0

/-- `enqueue_audio_samples`: takes the first 2 input channel buffers, caps the
output channel count at `min (device channels) 2`, reads the input sample
count from channel 0 (`input_samples[0].len()` — an out-of-bounds panic,
`none`, when no channel is supplied), grows the device's pending buffer by
`input_sample_count * output_channels` slots and fills them by planar-to-
interleaved conversion. Returns the device's new pending buffer. -/
def enqueue_audio_samples (deviceChannels : Nat) (pending : List Int)
    (input_samples : List (List Int)) : Option (List Int) :=
  let taken := input_samples.take 2
  let output_channels := min deviceChannels 2
  match taken with
  | [] => none
  | first :: _ =>
      let input_sample_count := first.length
      let output_length := input_sample_count * output_channels
      some (pending ++
        convertFloat32PlanarToInterleaved output_channels taken output_length)

/-- The payload of one advanced `Frame` as the main loop consumes it: an
optional decoded video frame (embedded as a tag) and an optional list of
per-channel audio sample buffers. -/
structure FrameData where
  video_frame : Option Nat
  audio_samples : Option (List (List Int))
  deriving DecidableEq, Repr

/-- External input consumed by one iteration of the main loop:
`decodeErr` — `player.decode_frame()` returned `Err`;
`advanceErr` — decode succeeded but `player.advance()` returned `Err`;
`ok f quit` — a frame was advanced, and `quit` tells whether event polling
then reported a quit/escape event. -/
inductive IterInput where
  | decodeErr
  | advanceErr
  | ok (f : FrameData) (quit : Bool)
  deriving DecidableEq, Repr

/-- Observable actions of `main`. -/
inductive MainEvent where
  | printUsage
  | sdlInit
  | fileOpen
  | playerInit
  | windowInit
  | audioDeviceInit
  | decodeAttempt
  | presentVideo
  | enqueueAudio
  deriving DecidableEq, Repr

/-- How the main loop ends: `endOfPlayback` — `break` on a decode/advance
error; `userQuit` — `break` after a quit/escape event; `panicked` — an
`unwrap()` of a missing frame payload; `scriptEnd` — the embedding's input
script ran out (the source loop would keep iterating). -/
inductive LoopExit where
  | endOfPlayback
  | userQuit
  | panicked
  | scriptEnd
  deriving DecidableEq, Repr

/-- The presentation step of one loop iteration (source lines
`if let Some(ref mut video_renderer) … video_renderer.present(
frame.video_frame.unwrap(), …)` then the same for audio): when a renderer
exists the corresponding payload is `unwrap`ped — `none` embeds the panic on a
missing payload. Returns the presentation events of the iteration. -/
def presentStep (hasVideoRenderer hasAudioRenderer : Bool) (f : FrameData) :
    Option (List MainEvent) := do
  let videoEvents ← if hasVideoRenderer
    then f.video_frame.map fun _ => [MainEvent.presentVideo]
    else some []
  let audioEvents ← if hasAudioRenderer
    then f.audio_samples.map fun _ => [MainEvent.enqueueAudio]
    else some []
  pure (videoEvents ++ audioEvents)

/-- The main loop of `main`, driven by a script of per-iteration inputs:
each iteration attempts a decode (`break` on error), advances (`break` on
error), presents/enqueues via `presentStep`, and finally polls events
(`break` on quit). Returns the trace of events and how the loop ended. -/
def runLoop (hasVideoRenderer hasAudioRenderer : Bool) :
    List IterInput → List MainEvent × LoopExit
  | [] => ([], .scriptEnd)
  | .decodeErr :: _ => ([.decodeAttempt], .endOfPlayback)
  | .advanceErr :: _ => ([.decodeAttempt], .endOfPlayback)
  | .ok f quit :: rest =>
      match presentStep hasVideoRenderer hasAudioRenderer f with
      | none => ([.decodeAttempt], .panicked)
      | some events =>
          if quit then (.decodeAttempt :: events, .userQuit)
          else
            let (tailEvents, exit) := runLoop hasVideoRenderer hasAudioRenderer rest
            (.decodeAttempt :: events ++ tailEvents, exit)

/-- `main`: with fewer than 3 arguments (program name included) it prints the
usage line and returns at once; otherwise it initializes SDL, opens the file,
builds the player, sets up the window/video renderer and the audio device for
the tracks that exist, and runs the loop. -/
def mainTrace (args : List String) (hasVideoTrack hasAudioTrack : Bool)
    (script : List IterInput) : List MainEvent :=
  if args.length < 3 then [.printUsage]
  else
    [.sdlInit, .fileOpen, .playerInit]
    ++ (if hasVideoTrack then [.windowInit] else [])
    ++ (if hasAudioTrack then [.audioDeviceInit] else [])
    ++ (runLoop hasVideoTrack hasAudioTrack script).1

/-! Helper lemmas (shared). -/

/-- Clearing the lowest bit of a `u16` (`w & !1`, i.e. `w &&& 0xFFFE`) rounds
the value down to the nearest even number. -/
theorem width_and_mask_eq (w : Nat) (hw : w < 65536) :
    w &&& 65534 = 2 * (w / 2) := by
  apply Nat.eq_of_testBit_eq
  intro i
  rw [Nat.testBit_land]
  match i with
  | 0 =>
    simp
  | (i + 1) =>
    rw [Nat.testBit_succ, Nat.testBit_succ]
    conv_rhs => rw [Nat.testBit_succ]
    rw [Nat.mul_div_cancel_left _ (by norm_num : 0 < 2)]
    have h2 : (65534 : Nat) / 2 = 2 ^ 15 - 1 := by norm_num
    rw [h2, Nat.testBit_two_pow_sub_one]
    by_cases h15 : i < 15
    · simp [h15]
    · have h3 : w / 2 < 2 ^ i := by
        have h4 : (2 : Nat) ^ 15 ≤ 2 ^ i := Nat.pow_le_pow_right (by norm_num) (by omega)
        have h5 : (2 : Nat) ^ 15 = 32768 := by norm_num
        omega
      simp [h15, Nat.testBit_eq_false_of_lt h3]

/-- The reinterpreted pixel view always has exactly the requested length,
whatever the underlying buffer's reported length. -/
theorem transmuteToLength_length (buf : List Int) (n : Nat) :
    (transmuteToLength buf n).length = n := by
  simp only [transmuteToLength, List.length_append, List.length_take,
    List.length_replicate]
  omega

/-- On an I420 track, `upload_image` applied to a buffer of exactly the
required length succeeds and yields the take/drop partition of the buffer. -/
theorem upload_image_i420_of_length (t : VideoTrackData) (buf : List Int)
    (S : Nat) (hfmt : t.pixel_format = PixelFormat.I420)
    (hlen : buf.length = i420RealLength S t.height) :
    upload_image t buf S =
      some ([buf.take (S * t.height),
             (buf.drop (S * t.height)).take ((S / 2) * (t.height / 2)),
             (buf.drop (S * t.height)).drop ((S / 2) * (t.height / 2))],
            [S, S / 2, S / 2]) := by
  obtain ⟨pf, w, h⟩ := t
  simp only at hfmt hlen
  subst hfmt
  have hb : buf.length = S * h + 2 * ((S / 2) * (h / 2)) := hlen
  have h1 : S * h ≤ buf.length := by
    rw [hb]; exact Nat.le_add_right _ _
  have h2 : (S / 2) * (h / 2) ≤ (buf.drop (S * h)).length := by
    rw [List.length_drop, hb]
    have key : ∀ a b : Nat, b ≤ a + 2 * b - a := fun a b => by omega
    exact key _ _
  simp only [upload_image, SdlVideoFormat.from_video_track]
  rw [if_pos h1, if_pos h2]

/-- On an I420 track, `upload_image` applied to a buffer shorter than the luma
plane panics at the first `split_at_mut` (embedded as `none`). -/
theorem upload_image_i420_short (t : VideoTrackData) (buf : List Int)
    (S : Nat) (hfmt : t.pixel_format = PixelFormat.I420)
    (hshort : buf.length < S * t.height) :
    upload_image t buf S = none := by
  obtain ⟨pf, w, h⟩ := t
  simp only at hfmt hshort
  subst hfmt
  simp only [upload_image, SdlVideoFormat.from_video_track]
  rw [if_neg (by omega)]

/-! Claim theorems. -/

/-- C3: `SdlVideoFormat::from_video_track` maps every supported native pixel
format (I420, NV12, Indexed, Rgb24) to exactly one of two canonical outputs,
and in the claimed direction: the YUV family (I420, NV12) to planar YUV
(I420/IYUV) and the others (Indexed, Rgb24) to packed RGB (Rgb24/RGB24); the
adjusted SDL width equals the native width rounded down to the nearest even
value, hence is always even. -/
theorem from_video_track_two_canonical_outputs (t : VideoTrackData)
    (hw : t.width < 65536) :
    (((SdlVideoFormat.from_video_track t).media_pixel_format = PixelFormat.I420 ∧
      (SdlVideoFormat.from_video_track t).sdl_pixel_format = PixelFormatEnum.IYUV) ∨
     ((SdlVideoFormat.from_video_track t).media_pixel_format = PixelFormat.Rgb24 ∧
      (SdlVideoFormat.from_video_track t).sdl_pixel_format = PixelFormatEnum.RGB24)) ∧
    (SdlVideoFormat.from_video_track t).media_pixel_format =
      (match t.pixel_format with
       | PixelFormat.I420 | PixelFormat.NV12 => PixelFormat.I420
       | PixelFormat.Indexed _ | PixelFormat.Rgb24 => PixelFormat.Rgb24) ∧
    (SdlVideoFormat.from_video_track t).sdl_pixel_format =
      (match t.pixel_format with
       | PixelFormat.I420 | PixelFormat.NV12 => PixelFormatEnum.IYUV
       | PixelFormat.Indexed _ | PixelFormat.Rgb24 => PixelFormatEnum.RGB24) ∧
    (SdlVideoFormat.from_video_track t).sdl_width = 2 * (t.width / 2) ∧
    2 ∣ (SdlVideoFormat.from_video_track t).sdl_width := by
  obtain ⟨pf, w, h⟩ := t
  have hmask := width_and_mask_eq w hw
  cases pf <;>
    exact ⟨by simp [SdlVideoFormat.from_video_track],
           by simp [SdlVideoFormat.from_video_track],
           by simp [SdlVideoFormat.from_video_track],
           by simp [SdlVideoFormat.from_video_track, hmask],
           by simp [SdlVideoFormat.from_video_track, hmask]⟩

/-- Witness for C3 at the concrete track (NV12, width 641, height 480): a
YUV-family input that must land on the planar-YUV output. -/
theorem from_video_track_two_canonical_outputs_witness :
    (((SdlVideoFormat.from_video_track ⟨PixelFormat.NV12, 641, 480⟩).media_pixel_format
        = PixelFormat.I420 ∧
      (SdlVideoFormat.from_video_track ⟨PixelFormat.NV12, 641, 480⟩).sdl_pixel_format
        = PixelFormatEnum.IYUV) ∨
     ((SdlVideoFormat.from_video_track ⟨PixelFormat.NV12, 641, 480⟩).media_pixel_format
        = PixelFormat.Rgb24 ∧
      (SdlVideoFormat.from_video_track ⟨PixelFormat.NV12, 641, 480⟩).sdl_pixel_format
        = PixelFormatEnum.RGB24)) ∧
    (SdlVideoFormat.from_video_track ⟨PixelFormat.NV12, 641, 480⟩).media_pixel_format
      = PixelFormat.I420 ∧
    (SdlVideoFormat.from_video_track ⟨PixelFormat.NV12, 641, 480⟩).sdl_pixel_format
      = PixelFormatEnum.IYUV ∧
    (SdlVideoFormat.from_video_track ⟨PixelFormat.NV12, 641, 480⟩).sdl_width
      = 2 * (641 / 2) ∧
    2 ∣ (SdlVideoFormat.from_video_track ⟨PixelFormat.NV12, 641, 480⟩).sdl_width :=
  from_video_track_two_canonical_outputs ⟨PixelFormat.NV12, 641, 480⟩ (by decide)

/-- C4: for a planar-YUV (I420) upload with output stride `S` and track height
`H`, the output buffer is partitioned (its planes concatenate back to the
buffer) into a luma plane of size `S*H` followed by two chroma planes each of
size `(S/2)*(H/2)`, with chroma stride `S/2`, and the plane sizes add up to
the required total `i420RealLength S H = S*H + 2*((S/2)*(H/2))`. -/
theorem upload_image_i420_partition (t : VideoTrackData) (buf : List Int)
    (S : Nat) (hfmt : t.pixel_format = PixelFormat.I420)
    (hlen : buf.length = i420RealLength S t.height) :
    (upload_image t buf S).map (fun r => r.1.map List.length) =
      some [S * t.height, (S / 2) * (t.height / 2), (S / 2) * (t.height / 2)] ∧
    (upload_image t buf S).map (fun r => r.2) = some [S, S / 2, S / 2] ∧
    (upload_image t buf S).map (fun r => r.1.flatten) = some buf ∧
    S * t.height + ((S / 2) * (t.height / 2) + (S / 2) * (t.height / 2)) =
      i420RealLength S t.height := by
  rw [upload_image_i420_of_length t buf S hfmt hlen]
  have hb : buf.length = S * t.height + 2 * ((S / 2) * (t.height / 2)) := hlen
  have key : ∀ a b : Nat, b ≤ a + 2 * b - a := fun a b => by omega
  have h1 : S * t.height ≤ buf.length := by rw [hb]; exact Nat.le_add_right _ _
  have h2 : (S / 2) * (t.height / 2) ≤ (buf.drop (S * t.height)).length := by
    rw [List.length_drop, hb]; exact key _ _
  refine ⟨?_, rfl, ?_, ?_⟩
  · simp only [Option.map_some', List.map_cons, List.map_nil, List.length_take,
      List.length_drop, List.length_take]
    rw [List.length_drop] at h2
    have key2 : ∀ a b : Nat, a + 2 * b - a - b = b := fun a b => by omega
    rw [Nat.min_eq_left h2, hb, key2, Nat.min_eq_left (Nat.le_add_right _ _)]
  · simp only [Option.map_some', List.flatten]
    rw [List.append_nil, List.take_append_drop, List.take_append_drop]
  · simp only [i420RealLength]
    omega

/-- Witness for C4 at stride 4, height 4, a buffer of the required length 24. -/
theorem upload_image_i420_partition_witness :
    (upload_image ⟨PixelFormat.I420, 4, 4⟩ (List.replicate 24 (7 : Int)) 4).map
        (fun r => r.1.map List.length) = some [4 * 4, (4 / 2) * (4 / 2), (4 / 2) * (4 / 2)] ∧
    (upload_image ⟨PixelFormat.I420, 4, 4⟩ (List.replicate 24 (7 : Int)) 4).map
        (fun r => r.2) = some [4, 4 / 2, 4 / 2] ∧
    (upload_image ⟨PixelFormat.I420, 4, 4⟩ (List.replicate 24 (7 : Int)) 4).map
        (fun r => r.1.flatten) = some (List.replicate 24 (7 : Int)) ∧
    4 * 4 + ((4 / 2) * (4 / 2) + (4 / 2) * (4 / 2)) = i420RealLength 4 4 :=
  upload_image_i420_partition ⟨PixelFormat.I420, 4, 4⟩ (List.replicate 24 (7 : Int)) 4
    rfl (by decide)

/-- C2 counterexample: on an I420 track of width 4 and height 4 with output
stride 4, the caller-supplied pixel buffer `[]` is smaller than the required
length `i420RealLength 4 4 = 24`, yet `upload` does not fail — refuting the
claim that the upload fails whenever the caller-supplied buffer is smaller
than the required length. -/
theorem upload_small_buffer_no_failure_counterexample :
    ([] : List Int).length < i420RealLength 4 4 ∧
    (upload ⟨PixelFormat.I420, 4, 4⟩ ([] : List Int) 4).isSome = true := by
  constructor
  · decide
  · rfl

/-- C2 (amended): `upload` computes the required buffer length per plane from
the output stride and height, but performs no size check against the
caller-supplied buffer: it reinterprets the buffer as one of exactly the
required length (regardless of the reported length, i.e. past a too-small
buffer) and always proceeds; only `upload_image`'s plane splitting fails
(panics) when the buffer it is handed is smaller than the luma plane, and
`upload` always hands it a buffer of exactly the required length. -/
theorem upload_reinterprets_buffer (t : VideoTrackData)
    (reported short : List Int) (S : Nat)
    (hfmt : t.pixel_format = PixelFormat.I420)
    (hshort : short.length < S * t.height) :
    (transmuteToLength reported (i420RealLength S t.height)).length =
      i420RealLength S t.height ∧
    upload t reported S =
      upload_image t (transmuteToLength reported (i420RealLength S t.height)) S ∧
    (upload t reported S).isSome = true ∧
    upload_image t short S = none := by
  have htl := transmuteToLength_length reported (i420RealLength S t.height)
  have hupl : upload t reported S =
      upload_image t (transmuteToLength reported (i420RealLength S t.height)) S := by
    obtain ⟨pf, w, h⟩ := t
    simp only at hfmt
    subst hfmt
    simp only [upload, uploadRealLength, SdlVideoFormat.from_video_track,
      Option.bind_eq_bind, Option.some_bind]
  refine ⟨htl, hupl, ?_, upload_image_i420_short t short S hfmt hshort⟩
  rw [hupl, upload_image_i420_of_length t _ S hfmt htl]
  rfl

/-- Witness for C2 (amended) at an I420 track of height 4, stride 4, reported
buffer `[]` (too small) and a probe buffer `[5]` shorter than the luma
plane. -/
theorem upload_reinterprets_buffer_witness :
    (transmuteToLength ([] : List Int) (i420RealLength 4 4)).length =
      i420RealLength 4 4 ∧
    upload ⟨PixelFormat.I420, 4, 4⟩ ([] : List Int) 4 =
      upload_image ⟨PixelFormat.I420, 4, 4⟩
        (transmuteToLength ([] : List Int) (i420RealLength 4 4)) 4 ∧
    (upload ⟨PixelFormat.I420, 4, 4⟩ ([] : List Int) 4).isSome = true ∧
    upload_image ⟨PixelFormat.I420, 4, 4⟩ [(5 : Int)] 4 = none :=
  upload_reinterprets_buffer ⟨PixelFormat.I420, 4, 4⟩ [] [(5 : Int)] 4 rfl (by decide)

/-- Evaluating a mapped range at an in-range index. -/
theorem getD_map_range (f : Nat → Int) (n k : Nat) (hk : k < n) (d : Int) :
    ((List.range n).map f).getD k d = f k := by
  rw [List.getD_eq_getElem?_getD, List.getElem?_map]
  simp [List.getElem?_range, hk]

/-- C5: `enqueue_audio_samples` uses at most 2 input channels (the result only
depends on the first two), the output channel count is
`C = min deviceChannels 2`, the pending buffer grows by exactly `N * C`
samples for input channels of `N` samples each, and interleaving preserves
per-channel sample order: the sample at offset `i * C + c` past the old
pending length is `input_samples[c][i]`. -/
theorem enqueue_audio_samples_interleaves (deviceChannels : Nat)
    (pending : List Int) (input_samples : List (List Int)) (N i c : Nat)
    (hne : input_samples ≠ [])
    (hlen : ∀ ch ∈ input_samples, ch.length = N)
    (hi : i < N) (hc : c < min deviceChannels 2)
    (hcch : c < input_samples.length) :
    enqueue_audio_samples deviceChannels pending input_samples =
      enqueue_audio_samples deviceChannels pending (input_samples.take 2) ∧
    ((enqueue_audio_samples deviceChannels pending input_samples).getD []).length =
      pending.length + N * min deviceChannels 2 ∧
    ((enqueue_audio_samples deviceChannels pending input_samples).getD
        []).getD (pending.length + (i * min deviceChannels 2 + c)) 0 =
      (input_samples.getD c []).getD i 0 := by
  match input_samples, hne with
  | ch0 :: restCh, _ =>
    have hch0 : ch0.length = N := hlen ch0 (List.mem_cons_self ch0 restCh)
    refine ⟨?_, ?_, ?_⟩
    · simp [enqueue_audio_samples, List.take_take]
    · simp only [enqueue_audio_samples, List.take_succ_cons, Option.getD_some,
        List.length_append, convertFloat32PlanarToInterleaved,
        List.length_map, List.length_range, hch0]
    · have hC2 : min deviceChannels 2 ≤ 2 := Nat.min_le_right _ _
      have hk : i * min deviceChannels 2 + c < N * min deviceChannels 2 := by
        have h1 : i * min deviceChannels 2 + c <
            (i + 1) * min deviceChannels 2 := by
          rw [Nat.succ_mul]
          exact Nat.add_lt_add_left hc _
        have h2 : (i + 1) * min deviceChannels 2 ≤ N * min deviceChannels 2 :=
          Nat.mul_le_mul_right _ hi
        exact lt_of_lt_of_le h1 h2
      simp only [enqueue_audio_samples, List.take_succ_cons, Option.getD_some]
      rw [List.getD_append_right _ _ _ _ (Nat.le_add_right _ _),
        Nat.add_sub_cancel_left]
      unfold convertFloat32PlanarToInterleaved
      rw [hch0, getD_map_range _ _ _ hk]
      have hCpos : 0 < min deviceChannels 2 := Nat.zero_lt_of_lt hc
      have hmod : (i * min deviceChannels 2 + c) % min deviceChannels 2 = c := by
        rw [Nat.mul_comm, Nat.mul_add_mod, Nat.mod_eq_of_lt hc]
      have hdiv : (i * min deviceChannels 2 + c) / min deviceChannels 2 = i := by
        rw [Nat.mul_comm, Nat.mul_add_div hCpos, Nat.div_eq_of_lt hc,
          Nat.add_zero]
      rw [hmod, hdiv]
      have htake : (ch0 :: List.take 1 restCh).getD c [] =
          (ch0 :: restCh).getD c [] := by
        rw [show ch0 :: List.take 1 restCh = List.take 2 (ch0 :: restCh) from rfl]
        rw [List.getD_eq_getElem?_getD, List.getD_eq_getElem?_getD,
          List.getElem?_take]
        rw [if_pos (lt_of_lt_of_le hc hC2)]
      rw [htake]

/-- Witness for C5: device with 2 channels, pending `[9]`, two input channels
`[1,2,3]` and `[4,5,6]` plus a dropped third channel, at sample `i = 1`,
channel `c = 1`. -/
theorem enqueue_audio_samples_interleaves_witness :
    enqueue_audio_samples 2 [9] [[1, 2, 3], [4, 5, 6], [100, 200, 300]] =
      enqueue_audio_samples 2 [9]
        ([[1, 2, 3], [4, 5, 6], [100, 200, 300]].take 2) ∧
    ((enqueue_audio_samples 2 [9]
        [[1, 2, 3], [4, 5, 6], [100, 200, 300]]).getD []).length =
      [(9 : Int)].length + 3 * min 2 2 ∧
    ((enqueue_audio_samples 2 [9]
        [[1, 2, 3], [4, 5, 6], [100, 200, 300]]).getD []).getD
        ([(9 : Int)].length + (1 * min 2 2 + 1)) 0 =
      ([[1, 2, 3], [4, 5, 6], [100, 200, 300]].getD 1 []).getD 1 0 :=
  enqueue_audio_samples_interleaves 2 [9] [[1, 2, 3], [4, 5, 6], [100, 200, 300]]
    3 1 1 (by decide) (by decide) (by decide) (by decide) (by decide)

/-- C10: calling `enqueue_audio_samples` with an empty sequence of input
channel buffers panics (`input_samples[0]` with no emptiness guard, embedded
as `none`); correct operation needs at least one input channel buffer. -/
theorem enqueue_audio_samples_empty_input_panics (deviceChannels : Nat)
    (pending : List Int) :
    enqueue_audio_samples deviceChannels pending [] = none := rfl

/-- C6: the clock's target presentation instant is the pure function
`referenceWallClockTime + toDuration (frameTick − referenceTick)` of the
current clock state; after `new` (reference tick 0) it equals the reference
wall-clock time plus the frame tick as a duration, and after `resync T` the
target instant for tick `T` is exactly the new reference wall-clock time
(zero offset, given that zero ticks convert to the zero duration). -/
theorem targetTime_clock_anchor (toDuration : Int → Int)
    (p : ExampleMediaPlayer) (now now2 tick T : Int)
    (h0 : toDuration 0 = 0) :
    targetTime toDuration p tick =
      p.playback_start_wallclock_time +
        toDuration (tick - p.playback_start_ticks) ∧
    targetTime toDuration (ExampleMediaPlayer.new now) tick =
      now + toDuration tick ∧
    targetTime toDuration (p.resync T now2) T = now2 := by
  refine ⟨rfl, ?_, ?_⟩
  · simp [targetTime, ExampleMediaPlayer.new]
  · simp [targetTime, ExampleMediaPlayer.resync, h0]

/-- Witness for C6 with the identity tick-to-duration conversion, a clock
state (tick 5, wall-clock 100), `new` at time 100, and `resync` to tick 42 at
time 200. -/
theorem targetTime_clock_anchor_witness :
    targetTime (fun x => x) ⟨5, 100⟩ 7 =
      (⟨5, 100⟩ : ExampleMediaPlayer).playback_start_wallclock_time +
        (fun x => x) (7 - (⟨5, 100⟩ : ExampleMediaPlayer).playback_start_ticks) ∧
    targetTime (fun x => x) (ExampleMediaPlayer.new 100) 7 =
      100 + (fun x => x) 7 ∧
    targetTime (fun x => x) (ExampleMediaPlayer.resync ⟨5, 100⟩ 42 200) 42 = 200 :=
  targetTime_clock_anchor (fun x => x) ⟨5, 100⟩ 100 200 7 42 rfl

/-- C7: on an underrun (fewer pending samples than output slots) the pull
callback zeroes the buffer, overwrites the first `pending.length` slots with
the pending samples in order, leaves the remaining slots zero, and leaves the
pending buffer empty — no panic occurs (the function is total). -/
theorem callback_underrun_zero_fill (pending out : List Int) (i j : Nat)
    (hunder : pending.length < out.length)
    (hi : i < pending.length)
    (hj1 : pending.length ≤ j) (hj2 : j < out.length) :
    (callback pending out).1.length = out.length ∧
    (callback pending out).1[i]? = pending[i]? ∧
    (callback pending out).1[j]? = some 0 ∧
    (callback pending out).2 = [] := by
  simp only [callback, if_pos hunder, List.length_replicate]
  refine ⟨?_, ?_, ?_, ?_⟩
  · rw [List.length_map, List.length_range]
  · rw [List.getElem?_map, List.getElem?_range (by omega), Option.map_some']
    rw [if_pos hi, List.getD_eq_getElem?_getD, List.getElem?_eq_getElem hi]
    rfl
  · rw [List.getElem?_map, List.getElem?_range hj2, Option.map_some']
    rw [if_neg (by omega), List.getD_eq_getElem?_getD, List.getElem?_replicate,
      if_pos hj2]
    rfl
  · exact List.drop_eq_nil_of_le (Nat.le_of_lt hunder)

/-- Witness for C7: 2 pending samples, 5 output slots, probing slot 1 (copied)
and slot 3 (zero-filled). -/
theorem callback_underrun_zero_fill_witness :
    (callback [5, 6] [8, 8, 8, 8, 8]).1.length = [(8 : Int), 8, 8, 8, 8].length ∧
    (callback [5, 6] [8, 8, 8, 8, 8]).1[1]? = [(5 : Int), 6][1]? ∧
    (callback [5, 6] [8, 8, 8, 8, 8]).1[3]? = some 0 ∧
    (callback [5, 6] [8, 8, 8, 8, 8]).2 = [] :=
  callback_underrun_zero_fill [5, 6] [8, 8, 8, 8, 8] 1 3
    (by decide) (by decide) (by decide) (by decide)

/-- C1 counterexample: with a video renderer present, an advanced frame
carrying an audio payload but no video payload makes the loop iteration panic
on `frame.video_frame.unwrap()` — the loop fails instead of tolerating the
absent payload. -/
theorem loop_missing_payload_panics_counterexample :
    runLoop true true [IterInput.ok ⟨none, some [[1]]⟩ false] =
      ([MainEvent.decodeAttempt], LoopExit.panicked) := rfl

/-- C1 (amended): in every iteration, when a video renderer exists the loop
unconditionally unwraps the frame's video payload, and when an audio renderer
exists it unwraps the audio payload: with the payloads present it presents the
video and enqueues the audio; a frame lacking a payload whose renderer exists
causes a panic (loop failure) rather than being skipped. -/
theorem loop_unwraps_payloads (hasA : Bool) (f1 f2 f3 : FrameData)
    (q : Bool) (rest : List IterInput)
    (h1 : f1.video_frame = none)
    (h3 : f3.audio_samples = none)
    (h2v : f2.video_frame.isSome = true)
    (h2a : f2.audio_samples.isSome = true) :
    runLoop true hasA (IterInput.ok f1 q :: rest) =
      ([MainEvent.decodeAttempt], LoopExit.panicked) ∧
    runLoop false true (IterInput.ok f3 q :: rest) =
      ([MainEvent.decodeAttempt], LoopExit.panicked) ∧
    presentStep true true f2 =
      some [MainEvent.presentVideo, MainEvent.enqueueAudio] := by
  obtain ⟨v, hv⟩ := Option.isSome_iff_exists.mp h2v
  obtain ⟨a, ha⟩ := Option.isSome_iff_exists.mp h2a
  refine ⟨?_, ?_, ?_⟩
  · simp [runLoop, presentStep, h1]
  · simp [runLoop, presentStep, h3]
  · simp [presentStep, hv, ha]

/-- Witness for C1 (amended): audio renderer present, frame 1 lacking video,
frame 3 lacking audio, frame 2 carrying both payloads. -/
theorem loop_unwraps_payloads_witness :
    runLoop true true [IterInput.ok ⟨none, some [[1]]⟩ false] =
      ([MainEvent.decodeAttempt], LoopExit.panicked) ∧
    runLoop false true [IterInput.ok ⟨some 1, none⟩ false] =
      ([MainEvent.decodeAttempt], LoopExit.panicked) ∧
    presentStep true true ⟨some 1, some [[2]]⟩ =
      some [MainEvent.presentVideo, MainEvent.enqueueAudio] :=
  loop_unwraps_payloads true ⟨none, some [[1]]⟩ ⟨some 1, some [[2]]⟩
    ⟨some 1, none⟩ false [] rfl rfl rfl rfl

/-- C8: with fewer than 3 arguments (program name included), `main` prints the
usage line and returns at once: its whole trace is the usage print — no SDL
initialization, no file open, no player construction, no window or audio
device setup, and no decode attempt happen. -/
theorem main_usage_early_return (args : List String) (hasV hasA : Bool)
    (script : List IterInput) (h : args.length < 3) :
    mainTrace args hasV hasA script = [MainEvent.printUsage] := by
  simp [mainTrace, h]

/-- Witness for C8 with a 2-element argument vector. -/
theorem main_usage_early_return_witness :
    mainTrace ["example", "video.webm"] true true [IterInput.decodeErr] =
      [MainEvent.printUsage] :=
  main_usage_early_return ["example", "video.webm"] true true
    [IterInput.decodeErr] (by decide)

/-- A loop iteration that advances a frame, presents it without panicking and
sees no quit event prepends its events and continues with the rest. -/
theorem runLoop_ok_cons (hasV hasA : Bool) (f : FrameData)
    (events : List MainEvent) (rest : List IterInput)
    (hstep : presentStep hasV hasA f = some events) :
    runLoop hasV hasA (IterInput.ok f false :: rest) =
      (MainEvent.decodeAttempt :: events ++ (runLoop hasV hasA rest).1,
       (runLoop hasV hasA rest).2) := by
  simp [runLoop, hstep]

/-- C9: whatever prefix of successful iterations came before, an error from
`decode_frame` or from `advance` makes the loop exit at once as end of
playback: the trace is exactly the prefix's trace plus the final decode
attempt (nothing is retried, no further frame is presented) and the exit is
`endOfPlayback`, not a surfaced error. -/
theorem loop_error_ends_playback (hasV hasA : Bool)
    (pre rest₁ rest₂ : List IterInput)
    (hpre : ∀ x ∈ pre, ∃ f events, x = IterInput.ok f false ∧
      presentStep hasV hasA f = some events) :
    runLoop hasV hasA (pre ++ IterInput.decodeErr :: rest₁) =
      ((runLoop hasV hasA pre).1 ++ [MainEvent.decodeAttempt],
       LoopExit.endOfPlayback) ∧
    runLoop hasV hasA (pre ++ IterInput.advanceErr :: rest₂) =
      ((runLoop hasV hasA pre).1 ++ [MainEvent.decodeAttempt],
       LoopExit.endOfPlayback) := by
  induction pre with
  | nil => exact ⟨rfl, rfl⟩
  | cons x pre ih =>
      obtain ⟨f, events, hx, hstep⟩ := hpre x (List.mem_cons_self x pre)
      subst hx
      have ih2 := ih fun y hy => hpre y (List.mem_cons_of_mem _ hy)
      constructor
      · rw [List.cons_append, runLoop_ok_cons hasV hasA f events _ hstep,
          runLoop_ok_cons hasV hasA f events pre hstep, ih2.1]
        simp
      · rw [List.cons_append, runLoop_ok_cons hasV hasA f events _ hstep,
          runLoop_ok_cons hasV hasA f events pre hstep, ih2.2]
        simp

/-- Witness for C9: one successful audio+video iteration, then a decode error
(respectively an advance error). -/
theorem loop_error_ends_playback_witness :
    runLoop true true ([IterInput.ok ⟨some 1, some [[2]]⟩ false] ++
        IterInput.decodeErr :: []) =
      ((runLoop true true [IterInput.ok ⟨some 1, some [[2]]⟩ false]).1 ++
        [MainEvent.decodeAttempt], LoopExit.endOfPlayback) ∧
    runLoop true true ([IterInput.ok ⟨some 1, some [[2]]⟩ false] ++
        IterInput.advanceErr :: []) =
      ((runLoop true true [IterInput.ok ⟨some 1, some [[2]]⟩ false]).1 ++
        [MainEvent.decodeAttempt], LoopExit.endOfPlayback) :=
  loop_error_ends_playback true true [IterInput.ok ⟨some 1, some [[2]]⟩ false]
    [] []
    (by
      intro x hx
      simp only [List.mem_singleton] at hx
      subst hx
      exact ⟨⟨some 1, some [[2]]⟩, [MainEvent.presentVideo, MainEvent.enqueueAudio],
        rfl, rfl⟩)

end RustMediaExample
